import Mathlib

/-!
Shallow embedding of the Final-Trace puzzle repository core
(engine + registry + store + the four puzzle variants + utilities),
translated from the Python sources under `src/`.

Conventions of the embedding:
* Python `bytes` values are `List Nat` (each element a byte value).
* The opaque answer value passed to `solve` is the sum type `Ans`
  (integer / string / byte-sequence), matching the `isinstance`
  dispatch performed by each puzzle.
* A puzzle's `solve` returns `Except String (Bool × String)`:
  `.ok (success, message)` for a normal return, `.error e` when the
  Python code would raise, with `e` the exception's summary text
  (`str(e)`), which is what the engine interpolates into
  `"internal error: {e}"`.
* Wall-clock readings are not computable; the engine takes the
  millisecond timestamp used in the attempt id and the measured
  duration as explicit parameters.
-/

/-- Answer values: the runtime types the puzzles dispatch on
(`isinstance(answer, int)`, `str`, `(bytes, bytearray)`). -/
inductive Ans where
  | int (i : Int)
  | str (s : String)
  | bytes (bs : List Nat)
deriving DecidableEq, Repr

/-- `listStarts hay needle`: `needle` is a prefix of `hay`
(character lists compared left to right). -/
def listStarts : List Char → List Char → Bool
  | _, [] => true
  | [], _ :: _ => false
  | a :: as, b :: bs => a == b && listStarts as bs

/-- `listHasSub needle hay`: `needle` occurs contiguously inside `hay`.
Models Python's substring test `needle in hay`. -/
def listHasSub (needle : List Char) : List Char → Bool
  | [] => needle.isEmpty
  | c :: rest => listStarts (c :: rest) needle || listHasSub needle rest

/-- `strContains hay sub`: Python's `sub in hay` on strings. -/
def strContains (hay sub : String) : Bool :=
  listHasSub sub.data hay.data

/-- ASCII whitespace stripped by Python's `str.strip()` with no
arguments (the Unicode-only whitespace code points never occur in this
repository's data). -/
def isPySpace (c : Char) : Bool :=
  c == ' ' || c == '\t' || c == '\n' || c == '\r'
    || c == Char.ofNat 11 || c == Char.ofNat 12

/-- Python's `str.strip()`: drop leading and trailing whitespace. -/
def pyStrip (s : String) : String :=
  String.mk (((s.data.dropWhile isPySpace).reverse.dropWhile isPySpace).reverse)

/-- ASCII case folding of one character, as Python's `str.lower()`
acts on the ASCII range (no character appearing in this repository's
data has a non-trivial Unicode lowering outside that range). -/
def pyCharLower (c : Char) : Char :=
  if 'A' ≤ c && c ≤ 'Z' then Char.ofNat (c.toNat + 32) else c

/-- Python's `str.lower()`. -/
def pyLower (s : String) : String :=
  String.mk (s.data.map pyCharLower)

/-- `src/puzzles/puzzle1.py` — the fixed cipher constant
`Puzzle1._cipher_text`. -/
def cipher_text : String := "Guvf vf gur racenpgvba bs Rkqvgrra 33"

/-- `Puzzle1._rot_n`: rotate ASCII letters by `n` positions, wrapping
within `a`–`z` and `A`–`Z`; other characters unchanged.  Python's `%`
on a positive modulus and Lean's `Int` `%` (`Int.emod`) both return a
non-negative remainder, so the arithmetic coincides. -/
def rot_n (s : String) (n : Int) : String :=
  String.mk (s.data.map (fun ch =>
    if 'a' ≤ ch && ch ≤ 'z' then
      Char.ofNat ((((ch.toNat : Int) - ('a'.toNat : Int) + n) % 26
        + ('a'.toNat : Int)).toNat)
    else if 'A' ≤ ch && ch ≤ 'Z' then
      Char.ofNat ((((ch.toNat : Int) - ('A'.toNat : Int) + n) % 26
        + ('A'.toNat : Int)).toNat)
    else ch))

/-- `Puzzle1.solve` (`cryptic-shift`): an integer answer is used as a
rotation applied to the cipher text; a string answer is checked
directly for the marker word; anything else is unsupported.
This `solve` never raises, so every branch is `.ok`. -/
def puzzle1_solve : Ans → Except String (Bool × String)
  | .int n =>
      let decoded := rot_n cipher_text n
      if strContains decoded "Expedition"
          || strContains (pyLower decoded) (pyLower "Expedition") then
        .ok (true, "Decoded: " ++ decoded)
      else
        .ok (false, "Decoded but not recognizable: " ++ decoded)
  | .str a =>
      let normalized := pyStrip a
      if strContains normalized "Expedition"
          || strContains normalized "expedition" then
        .ok (true, "Nice! Looks like the phrase is present.")
      else
        .ok (false, "String provided but not correct.")
  | .bytes _ => .ok (false, "Unsupported answer type")

/-- Fuel-indexed decimal digit summation.  The fuel only makes the
recursion structural (so that the kernel can evaluate it); `digitSum`
below instantiates it with enough fuel, and `digitSum_eq` proves the
fuel-free recurrence matching the source. -/
def digitSumF (fuel n : Nat) : Nat :=
  match fuel with
  | 0 => 0
  | f + 1 => if n = 0 then 0 else n % 10 + digitSumF f (n / 10)

/-- Decimal digit sum of a natural number:
Python's `sum(int(ch) for ch in str(n))` (with `str(0) = "0"` summing
to 0).  `n` itself is always enough fuel since the argument shrinks by
a factor of ten each step. -/
def digitSum (n : Nat) : Nat := digitSumF n n

theorem digitSumF_congr :
    ∀ n f g : Nat, n ≤ f → n ≤ g → digitSumF f n = digitSumF g n := by
  intro n
  induction n using Nat.strong_induction_on with
  | _ n ih =>
    intro f g hf hg
    match f, g with
    | 0, 0 => rfl
    | 0, g + 1 =>
      have hn : n = 0 := by omega
      subst hn
      simp [digitSumF]
    | f + 1, 0 =>
      have hn : n = 0 := by omega
      subst hn
      simp [digitSumF]
    | f + 1, g + 1 =>
      simp only [digitSumF]
      by_cases hn : n = 0
      · simp [hn]
      · simp only [hn, if_false]
        have hdiv : n / 10 < n := Nat.div_lt_self (Nat.pos_of_ne_zero hn) (by decide)
        have := ih (n / 10) hdiv f g (by omega) (by omega)
        omega

/-- The recurrence actually executed by `sum(int(ch) for ch in str(n))`
read digit-by-digit: the fuel in `digitSum` is irrelevant. -/
theorem digitSum_eq (n : Nat) :
    digitSum n = if n = 0 then 0 else n % 10 + digitSum (n / 10) := by
  cases n with
  | zero => rfl
  | succ m =>
    show digitSumF (m + 1) (m + 1) = _
    simp only [digitSumF, Nat.succ_ne_zero, if_false]
    have hdiv : (m + 1) / 10 < m + 1 := Nat.div_lt_self (by omega) (by decide)
    have := digitSumF_congr ((m + 1) / 10) m ((m + 1) / 10) (by omega) (by omega)
    simp only [digitSum]
    omega

theorem digitSum_le (n : Nat) : digitSum n ≤ n := by
  induction n using Nat.strong_induction_on with
  | _ n ih =>
    rw [digitSum_eq]
    by_cases h : n = 0
    · simp [h]
    · simp only [h, if_false]
      have hdiv : n / 10 < n := Nat.div_lt_self (Nat.pos_of_ne_zero h) (by decide)
      have := ih (n / 10) hdiv
      omega

theorem digitSum_lt (n : Nat) (h : 10 ≤ n) : digitSum n < n := by
  rw [digitSum_eq]
  have h0 : ¬n = 0 := by omega
  simp only [h0, if_false]
  have h1 : digitSum (n / 10) ≤ n / 10 := digitSum_le (n / 10)
  omega

/-- Fuel-indexed version of the `while s >= 100` folding loop; as with
`digitSumF` the fuel is a structural-recursion device only, and
`foldDigits_eq` recovers the loop's step equation. -/
def foldDigitsF (fuel s : Nat) : Nat :=
  match fuel with
  | 0 => s
  | f + 1 => if 100 ≤ s then foldDigitsF f (digitSum s) else s

/-- The `while s >= 100: s = sum(...)` folding loop of
`checksum_digits` in `src/utils/helpers.py`.  Fuel `s` suffices since
the digit sum of a number ≥ 100 is strictly smaller. -/
def foldDigits (s : Nat) : Nat := foldDigitsF s s

theorem foldDigitsF_congr :
    ∀ s f g : Nat, s ≤ f → s ≤ g → foldDigitsF f s = foldDigitsF g s := by
  intro s
  induction s using Nat.strong_induction_on with
  | _ s ih =>
    intro f g hf hg
    match f, g with
    | 0, 0 => rfl
    | 0, g + 1 =>
      have hs : s = 0 := by omega
      subst hs
      simp [foldDigitsF]
    | f + 1, 0 =>
      have hs : s = 0 := by omega
      subst hs
      simp [foldDigitsF]
    | f + 1, g + 1 =>
      simp only [foldDigitsF]
      by_cases hs : 100 ≤ s
      · simp only [hs, if_true]
        have hlt : digitSum s < s := digitSum_lt s (by omega)
        exact ih (digitSum s) hlt f g (by omega) (by omega)
      · simp [hs]

/-- The loop-step equation of the `while s >= 100` fold: the fuel in
`foldDigits` is irrelevant. -/
theorem foldDigits_eq (s : Nat) :
    foldDigits s = if 100 ≤ s then foldDigits (digitSum s) else s := by
  cases s with
  | zero => rfl
  | succ m =>
    show foldDigitsF (m + 1) (m + 1) = _
    simp only [foldDigitsF]
    by_cases hs : 100 ≤ m + 1
    · simp only [hs, if_true]
      have hlt : digitSum (m + 1) < m + 1 := digitSum_lt (m + 1) (by omega)
      exact foldDigitsF_congr (digitSum (m + 1)) m (digitSum (m + 1))
        (by omega) (by omega)
    · simp [hs]

/-- `checksum_digits` (`src/utils/helpers.py`): absolute value, digit
sum, iterated folding while ≥ 100, final `% 100`. -/
def checksum_digits (n : Int) : Nat :=
  foldDigits (digitSum n.natAbs) % 100

/-- The `enumerate`-and-XOR comprehension shared by `xor_bytes`
(`src/utils/crypto.py`) and `Puzzle2.solve`:
`bytes(x ^ key[i % len(key)] for i, x in enumerate(a))`, with `i`
starting at the given index. -/
def xorCycleFrom (key : List Nat) (i : Nat) : List Nat → List Nat
  | [] => []
  | x :: xs => (x ^^^ key.getD (i % key.length) 0) :: xorCycleFrom key (i + 1) xs

/-- `xor_bytes` (`src/utils/crypto.py`): XOR of two byte streams,
repeating the key; raises `ValueError("empty key")` when the key is
empty — modeled as `.error`. -/
def xor_bytes (a b : List Nat) : Except String (List Nat) :=
  if b.isEmpty then .error "empty key"
  else .ok (xorCycleFrom b 0 a)

/-- Value of one base64 alphabet character. -/
def b64Val (c : Char) : Option Nat :=
  let n := c.toNat
  if 65 ≤ n && n ≤ 90 then some (n - 65)
  else if 97 ≤ n && n ≤ 122 then some (n - 97 + 26)
  else if 48 ≤ n && n ≤ 57 then some (n - 48 + 52)
  else if n = 43 then some 62
  else if n = 47 then some 63
  else none

/-- Bit-accumulator core of base64 decoding: consume 6-bit values,
emit a byte whenever 8 or more bits are buffered. -/
def b64Bits : List Nat → Nat → Nat → List Nat
  | [], _, _ => []
  | v :: vs, acc, nbits =>
      let acc2 := acc * 64 + v
      let nbits2 := nbits + 6
      if 8 ≤ nbits2 then
        (acc2 / 2 ^ (nbits2 - 8)) :: b64Bits vs (acc2 % 2 ^ (nbits2 - 8)) (nbits2 - 8)
      else
        b64Bits vs acc2 nbits2

/-- Models Python's `base64.b64decode` on well-formed standard-alphabet
input (the only call site decodes the fixed constant
`Puzzle2._blob_b64`): strip `=` padding, map characters to 6-bit
values, reassemble bytes. -/
def b64decode (s : String) : Option (List Nat) :=
  ((s.data.filter (fun c => c ≠ '=')).mapM b64Val).map
    (fun vs => b64Bits vs 0 0)

/-- Membership in Python's literal `'0123456789abcdefABCDEF'` used by
`Puzzle2.solve` to pre-validate a hex key string. -/
def isHexDigit (c : Char) : Bool :=
  "0123456789abcdefABCDEF".data.contains c

/-- Value of one hexadecimal digit character. -/
def hexVal (c : Char) : Option Nat :=
  let n := c.toNat
  if 48 ≤ n && n ≤ 57 then some (n - 48)
  else if 97 ≤ n && n ≤ 102 then some (n - 97 + 10)
  else if 65 ≤ n && n ≤ 70 then some (n - 65 + 10)
  else none

/-- Models Python's `bytes.fromhex` on an even-length all-hex string
(the call site pre-validates exactly that): consume digit pairs. -/
def hexToBytes : List Char → Option (List Nat)
  | [] => some []
  | [_] => none
  | h :: l :: rest => do
      let hv ← hexVal h
      let lv ← hexVal l
      let tl ← hexToBytes rest
      pure ((hv * 16 + lv) :: tl)

/-- Models Python's strict UTF-8 decoding (`bytes.decode('utf-8')`):
rejects stray continuation bytes, overlong encodings, surrogates and
code points above `0x10FFFF`.  `none` models the raised
`UnicodeDecodeError`, which `Puzzle2.solve` catches itself. -/
def utf8Decode : List Nat → Option (List Char)
  | [] => some []
  | b :: bs =>
    if b < 0x80 then
      (utf8Decode bs).map (fun cs => Char.ofNat b :: cs)
    else if b < 0xC2 then none
    else if b < 0xE0 then
      match bs with
      | b1 :: rest =>
        if 0x80 ≤ b1 && b1 < 0xC0 then
          (utf8Decode rest).map
            (fun cs => Char.ofNat ((b - 0xC0) * 0x40 + (b1 - 0x80)) :: cs)
        else none
      | [] => none
    else if b < 0xF0 then
      match bs with
      | b1 :: b2 :: rest =>
        if (0x80 ≤ b1 && b1 < 0xC0) && (0x80 ≤ b2 && b2 < 0xC0) then
          let cp := (b - 0xE0) * 0x1000 + (b1 - 0x80) * 0x40 + (b2 - 0x80)
          if cp < 0x800 then none
          else if 0xD800 ≤ cp && cp < 0xE000 then none
          else (utf8Decode rest).map (fun cs => Char.ofNat cp :: cs)
        else none
      | _ => none
    else if b < 0xF5 then
      match bs with
      | b1 :: b2 :: b3 :: rest =>
        if ((0x80 ≤ b1 && b1 < 0xC0) && (0x80 ≤ b2 && b2 < 0xC0))
            && (0x80 ≤ b3 && b3 < 0xC0) then
          let cp := (b - 0xF0) * 0x40000 + (b1 - 0x80) * 0x1000
            + (b2 - 0x80) * 0x40 + (b3 - 0x80)
          if cp < 0x10000 then none
          else if 0x110000 ≤ cp then none
          else (utf8Decode rest).map (fun cs => Char.ofNat cp :: cs)
        else none
      | _ => none
    else none

/-- Lower-case hex digit character for a value below 16. -/
def pyHexDigit (n : Nat) : Char :=
  if n < 10 then Char.ofNat (48 + n) else Char.ofNat (87 + n)

/-- Escape of one byte inside Python's `repr` of a `bytes` object,
given the chosen quote character. -/
def pyByteEscape (q : Char) (b : Nat) : List Char :=
  if b = 92 then [Char.ofNat 92, Char.ofNat 92]
  else if b = 9 then [Char.ofNat 92, 't']
  else if b = 10 then [Char.ofNat 92, 'n']
  else if b = 13 then [Char.ofNat 92, 'r']
  else if b = q.toNat then [Char.ofNat 92, q]
  else if 0x20 ≤ b && b < 0x7F then [Char.ofNat b]
  else [Char.ofNat 92, 'x', pyHexDigit (b / 16), pyHexDigit (b % 16)]

/-- Models Python's `repr(out)` on a `bytes` value, the fallback
display used by `Puzzle2.solve` when UTF-8 decoding fails: `b'...'`
with standard escapes, preferring single quotes unless the bytes
contain a single quote and no double quote. -/
def reprBytes (bs : List Nat) : String :=
  let q : Char := if bs.contains 39 && !(bs.contains 34) then Char.ofNat 34
    else Char.ofNat 39
  String.mk ('b' :: q :: ((bs.map (pyByteEscape q)).flatten ++ [q]))

/-- `src/puzzles/puzzle2.py` — the fixed constant `Puzzle2._blob_b64`. -/
def blob_b64 : String := "SGVsbG8sIEV4cGVkaXRpb24gMzMh"

/-- `Puzzle2.solve` (`xor-echo`): derive a key from a hex string or
raw bytes, XOR it cyclically against the decoded blob, and test the
revealed text for the marker word.  An empty key with a non-empty
blob makes Python's `key[i % len(key)]` raise `ZeroDivisionError`
("integer division or modulo by zero"), modeled as `.error`. -/
def puzzle2_solve (answer : Ans) : Except String (Bool × String) :=
  match b64decode blob_b64 with
  | none => .ok (false, "corrupt blob")
  | some blob =>
    let key? : Option (List Nat) :=
      match answer with
      | .str a =>
        let s := pyStrip a
        if s.data.all isHexDigit && s.data.length % 2 == 0 then
          hexToBytes s.data
        else none
      | .bytes bs => some bs
      | .int _ => none
    match key? with
    | none => .ok (false, "provide hex key")
    | some key =>
      if key.isEmpty && !blob.isEmpty then
        .error "integer division or modulo by zero"
      else
        let out := xorCycleFrom key 0 blob
        let text := match utf8Decode out with
          | some cs => String.mk cs
          | none => reprBytes out
        if strContains text "Expedition"
            || strContains (pyLower text) (pyLower "Expedition") then
          .ok (true, "Revealed: " ++ text)
        else
          .ok (false, "Revealed but not expected: " ++ text)

/-- Accumulating parse of a non-empty run of decimal digit characters. -/
def decDigitsAcc : List Char → Nat → Option Nat
  | [], acc => some acc
  | c :: rest, acc =>
    let d := c.toNat
    if 48 ≤ d && d ≤ 57 then decDigitsAcc rest (acc * 10 + (d - 48))
    else none

/-- Parse one or more decimal digits; empty input fails. -/
def parseDecDigits : List Char → Option Nat
  | [] => none
  | cs => decDigitsAcc cs 0

/-- Signed decimal integer from a character list: optional sign, then
digits. -/
def pyIntOfChars : List Char → Option Int
  | '-' :: rest => (parseDecDigits rest).map (fun n => -(n : Int))
  | '+' :: rest => (parseDecDigits rest).map (fun n => (n : Int))
  | cs => (parseDecDigits cs).map (fun n => (n : Int))

/-- Models Python's `int(x)` as used by `Puzzle3.solve`: integers pass
through; strings and ASCII byte strings are stripped of surrounding
whitespace and parsed as an optional sign followed by decimal digits
(underscore grouping and non-ASCII digits are not modeled; no input in
this development uses them).  `none` models the raised `ValueError` or
`TypeError`, which `Puzzle3.solve` catches itself. -/
def pyInt : Ans → Option Int
  | .int i => some i
  | .str s => pyIntOfChars (pyStrip s).data
  | .bytes bs => pyIntOfChars (pyStrip (String.mk (bs.map Char.ofNat))).data

/-- `src/puzzles/puzzle3.py` — the fixed constant `Puzzle3.SEED`. -/
def SEED : Nat := 331

/-- `Puzzle3.solve` (`echo-checksum`): parse the answer as an integer;
success iff `(checksum_digits(val) + SEED % 100) % 100 == 33`.  The
success message preserves the source file's literal mojibake bytes
("â€”").  Never raises. -/
def puzzle3_solve (answer : Ans) : Except String (Bool × String) :=
  match pyInt answer with
  | none => .ok (false, "please provide an integer")
  | some val =>
    let calcN := checksum_digits val
    if (calcN + SEED % 100) % 100 = 33 then
      .ok (true, "Valid seed â€” checksum " ++ toString calcN)
    else
      .ok (false, "Checksum " ++ toString calcN ++ " not matching")

/-- A node of `Puzzle4._fs`: either a directory listing or file text. -/
inductive FsNode where
  | dir (entries : List String)
  | file (content : String)
deriving DecidableEq, Repr

/-- `src/puzzles/puzzle4.py` — the fixed virtual tree `Puzzle4._fs`. -/
def fs : List (String × FsNode) :=
  [("/", .dir ["expedition", "README.txt"]),
   ("/expedition", .dir ["logs", "meta.yml"]),
   ("/expedition/logs", .dir ["day01.txt", "day02.txt"]),
   ("/expedition/logs/day01.txt", .file "We reached the crater."),
   ("/expedition/logs/day02.txt", .file "Found traces of station 33.")]

/-- `Puzzle4.solve` (`logfs`): a string path is looked up in the
virtual tree; only a string-valued entry (a file) counts; its content
must contain `"station 33"` (lower-cased) or `"33"`.  Never raises. -/
def puzzle4_solve : Ans → Except String (Bool × String)
  | .str a =>
      let path := pyStrip a
      match ((fs.find? (fun p => p.1 == path)).map (fun p => p.2) : Option FsNode) with
      | some (.file content) =>
          if strContains (pyLower content) "station 33" || strContains content "33" then
            .ok (true, "Found note: " ++ content)
          else
            .ok (false, "Found text but not expected: " ++ content)
      | _ => .ok (false, "no such file or not a file")
  | _ => .ok (false, "path must be a string")

deriving instance DecidableEq for Except

/-- Values held by the engine's in-memory store: counters (`incr`),
durations (wall-clock fractions, modeled as rationals), success flags
and message/trace strings. -/
inductive StoreVal where
  | num (n : Nat)
  | rat (q : ℚ)
  | bool (b : Bool)
  | str (s : String)
deriving DecidableEq, Repr

/-- `InMemoryStore._data` (`src/core/engine.py`): a key/value map,
modeled as an association list with unique keys (Python `dict`
insertion order preserved). -/
abbrev Store : Type := List (String × StoreVal)

/-- A fresh store, as built by `InMemoryStore.__init__`. -/
def emptyStore : Store := []

/-- `InMemoryStore.get`: dictionary lookup with a default of `none`. -/
def storeGet (st : Store) (k : String) : Option StoreVal :=
  (st.find? (fun p => p.1 == k)).map (fun p => p.2)

/-- `InMemoryStore.set`: `self._data[key] = value` — replace in place
when the key exists, else append (dict insertion order). -/
def storeSet (st : Store) (k : String) (v : StoreVal) : Store :=
  if st.any (fun p => p.1 == k) then
    st.map (fun p => if p.1 == k then (k, v) else p)
  else
    st ++ [(k, v)]

/-- `InMemoryStore.incr`:
`self._data[key] = self._data.get(key, 0) + delta`.  The engine only
ever calls it on counter keys, which hold `.num` values; a missing key
counts as 0. -/
def storeIncr (st : Store) (k : String) (delta : Nat) : Store :=
  let cur := match storeGet st k with
    | some (.num n) => n
    | _ => 0
  storeSet st k (.num (cur + delta))

/-- The type of a puzzle's `solve` as the engine sees it. -/
abbrev SolveFn : Type := Ans → Except String (Bool × String)

/-- `src/puzzles/registry.py`: the registry built at import time, in
registration order (`puzzle1` through `puzzle4` are imported in that
order and each registers itself via the decorator). -/
def registryM : List (String × SolveFn) :=
  [("cryptic-shift", puzzle1_solve),
   ("xor-echo", puzzle2_solve),
   ("echo-checksum", puzzle3_solve),
   ("logfs", puzzle4_solve)]

/-- The error raised by the engine: `PuzzleError("puzzle not found")`
(the spec's `PuzzleNotFound` taxonomy entry). -/
inductive EngineErr where
  | puzzleNotFound
deriving DecidableEq, Repr

/-- `PuzzleEngine.attempt` (`src/core/engine.py`).  `reg` is the
engine's registry, `st` its store.  `tms` models
`int(time.time()*1000)` (the millisecond timestamp embedded in the
attempt id) and `dur` the measured wall-clock duration.  Returns the
result crossing the engine boundary — `.error .puzzleNotFound` for an
unregistered name, `.ok (success, message)` otherwise — paired with
the store after the call. -/
def attempt (reg : List (String × SolveFn)) (st : Store) (name : String)
    (ans : Ans) (tms : Nat) (dur : ℚ) :
    Except EngineErr (Bool × String) × Store :=
  match reg.find? (fun p => p.1 == name) with
  | none => (.error .puzzleNotFound, st)
  | some (_, solve) =>
    let attemptId := "attempt:" ++ name ++ ":" ++ toString tms
    match solve ans with
    | .ok (ok, message) =>
        let st1 := storeIncr st ("puzzle:" ++ name ++ ":attempts") 1
        let st2 := storeSet st1 (attemptId ++ ":duration") (.rat dur)
        let st3 := storeSet st2 (attemptId ++ ":ok") (.bool ok)
        let st4 := storeSet st3 (attemptId ++ ":message") (.str message)
        (.ok (ok, message), st4)
    | .error e =>
        (.ok (false, "internal error: " ++ e),
         storeSet st (attemptId ++ ":error") (.str e))

/-- `PuzzleEngine.get_stats`: build a fresh mapping by iterating over
every key/value pair of the store. -/
def get_stats (st : Store) : Store :=
  st.foldl (fun acc kv => storeSet acc kv.1 kv.2) []

theorem xorCycleFrom_xorCycleFrom (key : List Nat) :
    ∀ (i : Nat) (a : List Nat), xorCycleFrom key i (xorCycleFrom key i a) = a := by
  intro i a
  induction a generalizing i with
  | nil => rfl
  | cons x xs ih =>
    simp only [xorCycleFrom]
    rw [Nat.xor_cancel_right, ih]

/-- C1 (counterexample): the claim expects
`attempt("cryptic-shift", 13)` to succeed, but rotating the fixed
cipher text by 13 yields "This is the enpraction of Exditeen 33",
which does not contain "Expedition" — not even case-insensitively —
so the engine returns `success = false`. -/
theorem C1_counterexample :
    strContains (rot_n cipher_text 13) "Expedition" = false ∧
    strContains (pyLower (rot_n cipher_text 13)) (pyLower "Expedition") = false ∧
    (attempt registryM emptyStore "cryptic-shift" (Ans.int 13) 0 0).1 =
      Except.ok (false,
        "Decoded but not recognizable: This is the enpraction of Exditeen 33") := by
  decide

/-- C1 (amended): for the engine built over the standard registry,
`attempt("cryptic-shift", 13)` applies a 13-position letter rotation
to the fixed cipher text, obtaining
"This is the enpraction of Exditeen 33"; that text does not contain
"Expedition", so the call returns `success = false` with the
"Decoded but not recognizable" message. -/
theorem C1_attempt_cryptic_shift_13 :
    rot_n cipher_text 13 = "This is the enpraction of Exditeen 33" ∧
    (attempt registryM emptyStore "cryptic-shift" (Ans.int 13) 0 0).1 =
      Except.ok (false,
        "Decoded but not recognizable: This is the enpraction of Exditeen 33") := by
  decide

/-- C4: for every byte sequence `data` and non-empty `key`, applying
`xor_transform` twice with the same key returns the original bytes
(the empty key is excluded: `xor_bytes` fails with
`ValueError("empty key")` there). -/
theorem C4_xor_transform_self_inverse (data key : List Nat) (h : key ≠ []) :
    (xor_bytes data key).bind (fun out => xor_bytes out key) =
      Except.ok data := by
  cases key with
  | nil => exact absurd rfl h
  | cons k ks =>
    simp only [xor_bytes, List.isEmpty_cons, Bool.false_eq_true, if_false,
      Except.bind]
    rw [xorCycleFrom_xorCycleFrom]

theorem C4_witness :
    ([255] ≠ ([] : List Nat)) ∧
    (xor_bytes [1, 2, 3] [255]).bind (fun out => xor_bytes out [255]) =
      Except.ok [1, 2, 3] :=
  ⟨by decide, C4_xor_transform_self_inverse [1, 2, 3] [255] (by decide)⟩

/-- C5: `digit_checksum` is symmetric under negation and always lands
in `[0, 99]`. -/
theorem C5_checksum_symm_and_range (n : Int) :
    checksum_digits n = checksum_digits (-n) ∧ checksum_digits n ≤ 99 := by
  constructor
  · unfold checksum_digits
    rw [Int.natAbs_neg]
  · unfold checksum_digits
    have := Nat.mod_lt (foldDigits (digitSum n.natAbs)) (show (0 : Nat) < 100 by decide)
    omega

/-- C6: `attempt("echo-checksum", "331")` parses the answer as the
integer 331, whose digit checksum is 7; `(7 + 331 % 100) % 100 = 38`
differs from the target 33, so the call returns `success = false`. -/
theorem C6_attempt_echo_checksum_331 :
    pyInt (Ans.str "331") = some 331 ∧
    checksum_digits 331 = 7 ∧
    (7 + SEED % 100) % 100 = 38 ∧
    (attempt registryM emptyStore "echo-checksum" (Ans.str "331") 0 0).1 =
      Except.ok (false, "Checksum 7 not matching") := by
  decide

/-- C7: `attempt("logfs", "/expedition/logs/day02.txt")` finds the
file content "Found traces of station 33.", which contains the marker
"33", and succeeds; the absent path "/nope" fails with
"no such file or not a file". -/
theorem C7_attempt_logfs :
    ((fs.find? (fun p => p.1 == "/expedition/logs/day02.txt")).map
        (fun p => p.2) = some (FsNode.file "Found traces of station 33.")) ∧
    strContains "Found traces of station 33." "33" = true ∧
    (attempt registryM emptyStore "logfs"
        (Ans.str "/expedition/logs/day02.txt") 0 0).1 =
      Except.ok (true, "Found note: Found traces of station 33.") ∧
    (attempt registryM emptyStore "logfs" (Ans.str "/nope") 0 0).1 =
      Except.ok (false, "no such file or not a file") := by
  decide

/-- C10: the hex key "00" (a single zero byte) is an accepted answer
for the `xor-echo` puzzle: it XOR-decodes the fixed blob to
"Hello, Expedition 33!", which contains the marker word, so the
attempt succeeds with a "Revealed:" message. -/
theorem C10_xor_echo_key00 :
    hexToBytes (pyStrip "00").data = some [0] ∧
    strContains "Hello, Expedition 33!" "Expedition" = true ∧
    (attempt registryM emptyStore "xor-echo" (Ans.str "00") 0 0).1 =
      Except.ok (true, "Revealed: Hello, Expedition 33!") := by
  decide

theorem data_append (s t : String) : (s ++ t).data = s.data ++ t.data := rfl

theorem ne_of_head_ne (s t : String) (h : s.data.head? ≠ t.data.head?) :
    s ≠ t :=
  fun he => h (by rw [he])

theorem append_sfx_ne (s : String) (u v : String) (h : u.data ≠ v.data) :
    (s ++ u) ≠ (s ++ v) := by
  intro he
  apply h
  have h2 : (s ++ u).data = (s ++ v).data := by rw [he]
  rw [data_append, data_append] at h2
  exact List.append_cancel_left h2

theorem find?_map_replace (st : Store) (k k' : String) (v : StoreVal)
    (h : k' ≠ k) :
    (st.map (fun p => if p.1 == k then (k, v) else p)).find?
        (fun p => p.1 == k') =
      st.find? (fun p => p.1 == k') := by
  induction st with
  | nil => rfl
  | cons p rest ih =>
    simp only [List.map_cons]
    by_cases hp : p.1 = k
    · rw [if_pos (by simp [hp])]
      rw [List.find?_cons_of_neg _ (by simp; exact fun hc => h hc.symm),
        List.find?_cons_of_neg _ (by simp [hp]; exact fun hc => h hc.symm)]
      exact ih
    · rw [if_neg (by simp [hp])]
      by_cases hp' : p.1 = k'
      · rw [List.find?_cons_of_pos _ (by simp [hp']),
          List.find?_cons_of_pos _ (by simp [hp'])]
      · rw [List.find?_cons_of_neg _ (by simp [hp']),
          List.find?_cons_of_neg _ (by simp [hp'])]
        exact ih

theorem find?_append_single (st : Store) (k k' : String) (v : StoreVal)
    (h : k' ≠ k) :
    (st ++ [(k, v)]).find? (fun p => p.1 == k') =
      st.find? (fun p => p.1 == k') := by
  induction st with
  | nil =>
    simp only [List.nil_append]
    rw [List.find?_cons_of_neg _ (by simp; exact fun hc => h hc.symm)]
  | cons p rest ih =>
    simp only [List.cons_append]
    by_cases hp' : p.1 = k'
    · rw [List.find?_cons_of_pos _ (by simp [hp']),
        List.find?_cons_of_pos _ (by simp [hp'])]
    · rw [List.find?_cons_of_neg _ (by simp [hp']),
        List.find?_cons_of_neg _ (by simp [hp'])]
      exact ih

theorem storeGet_storeSet_ne (st : Store) (k k' : String) (v : StoreVal)
    (h : k' ≠ k) :
    storeGet (storeSet st k v) k' = storeGet st k' := by
  unfold storeSet
  split
  · unfold storeGet
    rw [find?_map_replace st k k' v h]
  · unfold storeGet
    rw [find?_append_single st k k' v h]

/-- C2: for every registry, store, puzzle name and answer, if the
looked-up variant's `solve` raises (returns `.error e`), the engine
catches it, records the diagnostic under the attempt's `:error` key,
and returns `(false, "internal error: <summary>")` as an ordinary
result — the exception never crosses the engine boundary. -/
theorem C2_solve_exception_recovered (reg : List (String × SolveFn))
    (st : Store) (name : String) (ans : Ans) (tms : Nat) (dur : ℚ)
    (pn : String) (solveFn : SolveFn) (e : String)
    (hfind : reg.find? (fun p => p.1 == name) = some (pn, solveFn))
    (herr : solveFn ans = Except.error e) :
    attempt reg st name ans tms dur =
      (Except.ok (false, "internal error: " ++ e),
       storeSet st ("attempt:" ++ name ++ ":" ++ toString tms ++ ":error")
         (StoreVal.str e)) := by
  unfold attempt
  rw [hfind]
  simp only [herr]

theorem C2_witness :
    attempt registryM emptyStore "xor-echo" (Ans.str "") 5 0 =
      (Except.ok (false, "internal error: integer division or modulo by zero"),
       storeSet emptyStore
         ("attempt:" ++ "xor-echo" ++ ":" ++ toString 5 ++ ":error")
         (StoreVal.str "integer division or modulo by zero")) :=
  C2_solve_exception_recovered registryM emptyStore "xor-echo" (Ans.str "") 5 0
    "xor-echo" puzzle2_solve "integer division or modulo by zero"
    (by rfl) (by rfl)

/-- C3: for every registry, store, name and answer, an unregistered
name makes `attempt` raise `PuzzleError("puzzle not found")` — the
spec's `PuzzleNotFound` — with the store untouched; and this is the
only error that ever crosses the engine boundary: whenever `attempt`
produces an error at all, the name was unregistered and the error is
that one. -/
theorem C3_unregistered_puzzle_not_found (reg : List (String × SolveFn))
    (st : Store) (name : String) (ans : Ans) (tms : Nat) (dur : ℚ) :
    (reg.find? (fun p => p.1 == name) = none →
      attempt reg st name ans tms dur =
        (Except.error EngineErr.puzzleNotFound, st)) ∧
    (∀ err, (attempt reg st name ans tms dur).1 = Except.error err →
      reg.find? (fun p => p.1 == name) = none ∧
        err = EngineErr.puzzleNotFound) := by
  constructor
  · intro h
    unfold attempt
    rw [h]
  · intro err h
    unfold attempt at h
    cases hf : reg.find? (fun p => p.1 == name) with
    | none =>
      refine ⟨rfl, ?_⟩
      cases err
      rfl
    | some pr =>
      exfalso
      obtain ⟨pn, solveFn⟩ := pr
      rw [hf] at h
      dsimp only at h
      cases hs : solveFn ans with
      | ok r =>
        obtain ⟨ok, msg⟩ := r
        rw [hs] at h
        dsimp only at h
        exact Except.noConfusion h
      | error e =>
        rw [hs] at h
        dsimp only at h
        exact Except.noConfusion h

theorem C3_witness :
    attempt registryM emptyStore "non-existent-name" (Ans.int 0) 0 0 =
      (Except.error EngineErr.puzzleNotFound, emptyStore) :=
  (C3_unregistered_puzzle_not_found registryM emptyStore "non-existent-name"
    (Ans.int 0) 0 0).1 (by rfl)

/-- C9: when the looked-up variant's `solve` raises, the only store
mutation `attempt` performs is writing the single `:error` key for
that attempt: the per-puzzle counter `puzzle:<name>:attempts` is left
unchanged, and the `:duration`, `:ok` and `:message` keys of that
attempt are not written (their lookups are unchanged). -/
theorem C9_error_path_minimal_mutation (reg : List (String × SolveFn))
    (st : Store) (name : String) (ans : Ans) (tms : Nat) (dur : ℚ)
    (pn : String) (solveFn : SolveFn) (e : String)
    (hfind : reg.find? (fun p => p.1 == name) = some (pn, solveFn))
    (herr : solveFn ans = Except.error e) :
    ((attempt reg st name ans tms dur).2 =
      storeSet st ("attempt:" ++ name ++ ":" ++ toString tms ++ ":error")
        (StoreVal.str e)) ∧
    (storeGet (attempt reg st name ans tms dur).2
        ("puzzle:" ++ name ++ ":attempts") =
      storeGet st ("puzzle:" ++ name ++ ":attempts")) ∧
    (∀ sfx ∈ [":duration", ":ok", ":message"],
      storeGet (attempt reg st name ans tms dur).2
          ("attempt:" ++ name ++ ":" ++ toString tms ++ sfx) =
        storeGet st ("attempt:" ++ name ++ ":" ++ toString tms ++ sfx)) := by
  have hval := C2_solve_exception_recovered reg st name ans tms dur pn solveFn e
    hfind herr
  have hpost : (attempt reg st name ans tms dur).2 =
      storeSet st ("attempt:" ++ name ++ ":" ++ toString tms ++ ":error")
        (StoreVal.str e) := by
    rw [hval]
  refine ⟨hpost, ?_, ?_⟩
  · rw [hpost]
    apply storeGet_storeSet_ne
    apply ne_of_head_ne
    intro hh
    rw [show ("puzzle:" ++ name ++ ":attempts").data.head? = some 'p' from rfl,
      show ("attempt:" ++ name ++ ":" ++ toString tms
        ++ ":error").data.head? = some 'a' from rfl] at hh
    simp at hh
  · intro sfx hsfx
    rw [hpost]
    apply storeGet_storeSet_ne
    fin_cases hsfx
    · exact append_sfx_ne _ ":duration" ":error" (by decide)
    · exact append_sfx_ne _ ":ok" ":error" (by decide)
    · exact append_sfx_ne _ ":message" ":error" (by decide)

theorem C9_witness :
    ((attempt registryM
        [("puzzle:xor-echo:attempts", StoreVal.num 3)] "xor-echo"
        (Ans.str "") 5 0).2 =
      storeSet [("puzzle:xor-echo:attempts", StoreVal.num 3)]
        ("attempt:" ++ "xor-echo" ++ ":" ++ toString 5 ++ ":error")
        (StoreVal.str "integer division or modulo by zero")) ∧
    (storeGet (attempt registryM
        [("puzzle:xor-echo:attempts", StoreVal.num 3)] "xor-echo"
        (Ans.str "") 5 0).2 ("puzzle:" ++ "xor-echo" ++ ":attempts") =
      storeGet [("puzzle:xor-echo:attempts", StoreVal.num 3)]
        ("puzzle:" ++ "xor-echo" ++ ":attempts")) ∧
    (∀ sfx ∈ [":duration", ":ok", ":message"],
      storeGet (attempt registryM
          [("puzzle:xor-echo:attempts", StoreVal.num 3)] "xor-echo"
          (Ans.str "") 5 0).2
          ("attempt:" ++ "xor-echo" ++ ":" ++ toString 5 ++ sfx) =
        storeGet [("puzzle:xor-echo:attempts", StoreVal.num 3)]
          ("attempt:" ++ "xor-echo" ++ ":" ++ toString 5 ++ sfx)) :=
  C9_error_path_minimal_mutation registryM
    [("puzzle:xor-echo:attempts", StoreVal.num 3)] "xor-echo"
    (Ans.str "") 5 0 "xor-echo" puzzle2_solve
    "integer division or modulo by zero" (by rfl) (by rfl)

theorem foldl_storeSet_disjoint :
    ∀ (st acc : Store),
      (∀ p ∈ st, ∀ q ∈ acc, q.1 ≠ p.1) →
      ((st.map Prod.fst).Nodup) →
      st.foldl (fun a kv => storeSet a kv.1 kv.2) acc = acc ++ st := by
  intro st
  induction st with
  | nil =>
    intro acc _ _
    simp
  | cons hd rest ih =>
    intro acc hdisj hnod
    simp only [List.foldl_cons]
    have hany : acc.any (fun p => p.1 == hd.1) = false := by
      rw [List.any_eq_false]
      intro q hq
      simp only [beq_iff_eq]
      exact hdisj hd (List.mem_cons_self hd rest) q hq
    have hset : storeSet acc hd.1 hd.2 = acc ++ [hd] := by
      unfold storeSet
      rw [hany]
      simp
    rw [hset]
    rw [List.map_cons, List.nodup_cons] at hnod
    rw [ih (acc ++ [hd]) ?_ hnod.2]
    · simp
    · intro p hp q hq
      rcases List.mem_append.mp hq with hq' | hq'
      · exact hdisj p (List.mem_cons_of_mem hd hp) q hq'
      · simp only [List.mem_singleton] at hq'
        subst hq'
        intro he
        exact hnod.1 (he ▸ List.mem_map_of_mem Prod.fst hp)

/-- C8: `get_stats` returns a by-value snapshot of the entire store —
every key/value pair, in order, none filtered — leaving the store
itself untouched (the function is pure in the model; in the source it
only reads `_data` and writes into a fresh dict, so mutating the
returned mapping cannot alter the store).  The key-uniqueness
hypothesis is the dict invariant every Python store satisfies. -/
theorem C8_get_stats_snapshot (st : Store)
    (h : (st.map Prod.fst).Nodup) :
    get_stats st = st := by
  unfold get_stats
  rw [foldl_storeSet_disjoint st []
    (fun p _ q hq => absurd hq (List.not_mem_nil q)) h]
  simp

theorem C8_witness :
    ((([("puzzle:logfs:attempts", StoreVal.num 2),
        ("attempt:logfs:7:ok", StoreVal.bool true)] : Store).map
          Prod.fst).Nodup) ∧
    get_stats [("puzzle:logfs:attempts", StoreVal.num 2),
        ("attempt:logfs:7:ok", StoreVal.bool true)] =
      [("puzzle:logfs:attempts", StoreVal.num 2),
        ("attempt:logfs:7:ok", StoreVal.bool true)] :=
  ⟨by decide, C8_get_stats_snapshot _ (by decide)⟩
